import Mathlib

/-!
Verification of the two dashboard cores of this repository.

Dashboard 1 (`Day 1/app.py`): the Aggregator. A student table is a list of
rows; each row has three leading identifier columns (we keep the name, a
roll field and the `Class` column) followed by a list of numeric
subject-score columns (the columns at 0-based positions 3 and up).
The code computes
  df["Total Marks"]   = df.iloc[:, 3:].sum(axis=1)
  df["Average Marks"] = df.iloc[:, 3:7].mean(axis=1)
  class_averages      = df.groupby("Class")[df.columns[3:7]].mean()
  subject_averages    = df.iloc[:, 3:7].mean()
Note that both appended columns are present in `df` by the time the slice
`3:7` is taken for class and subject averages, and the "Average Marks"
column itself is computed after "Total Marks" was appended, so the slice
`3:7` taken row-wise is the first four entries of `scores ++ [total]`.
Scalars are modelled as rationals; pandas' NaN (the mean of an empty
column) is modelled as `none : Option ℚ`.

Dashboard 2 (`Day 2/view_transactions.py`): the Filter Engine. Rows carry
a datetime (modelled as a calendar-day number plus a within-day tick, so
that the `.dt.date` truncation is the projection on the day), a
description and numeric debit/credit/balance amounts. The filtering logic
first keeps rows whose truncated date lies in `[start_date, end_date]`
inclusive, then, when a target amount column is selected and the condition
is not "Any Amount", filters that column by the chosen condition
(strict `>`, strict `<`, or inclusive `between` after swapping reversed
bounds). The metrics are sums of the credit and debit columns of the
filtered table.
-/

/-- A student row: three identifier columns (the third being `Class`)
followed by the numeric score columns (0-based column positions 3, 4, …). -/
structure SRow where
  name : String
  roll : String
  cls : String
  scores : List ℚ
deriving DecidableEq, Repr

/-- Mean of a list of rationals, `none` on the empty list
(pandas: the mean of an empty column is NaN). -/
def listMean (l : List ℚ) : Option ℚ :=
  if l.isEmpty then none else some (l.sum / l.length)

/-- Row total, `df.iloc[:, 3:].sum(axis=1)` for one row: the sum of all
score columns. -/
def rowTotal (r : SRow) : ℚ := r.scores.sum

/-- Row average, `df.iloc[:, 3:7].mean(axis=1)` for one row, taken after the
"Total Marks" column was appended: the mean of the first four entries of
`scores ++ [total]`.  The selection is never empty, so the result is a
plain rational. -/
def rowAverage (r : SRow) : ℚ :=
  let sel := (r.scores ++ [rowTotal r]).take 4
  sel.sum / sel.length

/-- A row of the augmented table: the input row with the two appended
columns "Total Marks" and "Average Marks". -/
structure AugRow where
  row : SRow
  totalMarks : ℚ
  averageMarks : ℚ
deriving DecidableEq, Repr

/-- The augmented table: the input table with "Total Marks" and
"Average Marks" appended, row order preserved. -/
def augment (rows : List SRow) : List AugRow :=
  rows.map (fun r => ⟨r, rowTotal r, rowAverage r⟩)

/-- The numeric columns (positions 3 and up) of an augmented row:
the score columns followed by "Total Marks" and "Average Marks". -/
def augScores (r : SRow) : List ℚ :=
  r.scores ++ [rowTotal r, rowAverage r]

/-- Value of column `3 + j` of the augmented frame restricted to the slice
`df.columns[3:7]` (the first four numeric columns of the augmented frame),
for one row. -/
def colVal (j : ℕ) (r : SRow) : ℚ := ((augScores r).take 4).getD j 0

/-- Column mean over a list of rows of the `j`-th selected column
(`none` when there are no rows, i.e. pandas NaN). -/
def colMean (rows : List SRow) (j : ℕ) : Option ℚ :=
  listMean (rows.map (colVal j))

/-- Variant of `colMean` with NaN read as 0, for stating arithmetic laws. -/
def colMeanD (rows : List SRow) (j : ℕ) : ℚ := (colMean rows j).getD 0

/-- Number of columns selected by `iloc[:, 3:7]` on the augmented frame
when every row has `n` score columns: the frame has `3 + n + 2` columns. -/
def selCount (n : ℕ) : ℕ := min 4 (n + 2)

/-- Subject averages, `subject_averages = df.iloc[:, 3:7].mean()` on the
augmented frame:
one (possibly NaN) mean per selected column. -/
def subject_averages (n : ℕ) (rows : List SRow) : List (Option ℚ) :=
  (List.range (selCount n)).map (colMean rows)

/-- The distinct values of the `Class` column, the group keys of
`df.groupby("Class")`. -/
def classKeys (rows : List SRow) : List String := (rows.map SRow.cls).dedup

/-- The rows of one class group. -/
def classRows (rows : List SRow) (c : String) : List SRow :=
  rows.filter (fun r => decide (r.cls = c))

/-- Class averages, `class_averages = df.groupby("Class")[df.columns[3:7]].mean()`:
for class `c`, the per-selected-column means over that class's rows,
when every row has `n` score columns. -/
def class_average (n : ℕ) (rows : List SRow) (c : String) : List (Option ℚ) :=
  (List.range (selCount n)).map (colMean (classRows rows c))

/-- A datetime: a calendar-day number and a within-day tick, so that the
pandas `.dt.date` truncation is the projection on `day`. -/
structure DateTime where
  day : ℤ
  tick : ℕ
deriving DecidableEq, Repr

/-- One row of the `transactions` table as loaded by `load_data`. -/
structure Txn where
  transaction_date : DateTime
  description : String
  debit_amount : ℚ
  credit_amount : ℚ
  balance : ℚ
deriving DecidableEq, Repr

/-- The "Transaction Type" selectbox value. -/
inductive TxnType
  | All
  | Credit
  | Debit
deriving DecidableEq, Repr

/-- The "Condition" selectbox value. -/
inductive Cond
  | AnyAmount
  | GreaterThan
  | LessThan
  | Between
deriving DecidableEq, Repr

/-- The filter criteria gathered from the sidebar widgets. -/
structure Criteria where
  start_date : ℤ
  end_date : ℤ
  amount_type : TxnType
  filter_condition : Cond
  amount1 : ℚ
  amount2 : ℚ
deriving DecidableEq, Repr

/-- The date-range mask:
`(dt.date >= start_date) & (dt.date <= end_date)`. -/
def dateKeep (c : Criteria) (r : Txn) : Bool :=
  decide (c.start_date ≤ r.transaction_date.day) &&
    decide (r.transaction_date.day ≤ c.end_date)

/-- The date filter applied to the table. -/
def applyDateFilter (c : Criteria) (rows : List Txn) : List Txn :=
  rows.filter (dateKeep c)

/-- The `target_column` selection: `'credit_amount'` for Credit, `'debit_amount'` for
Debit, and the empty (falsy) string for All, modelled as `none`. -/
def target_column (t : TxnType) : Option (Txn → ℚ) :=
  match t with
  | TxnType.All => none
  | TxnType.Credit => some Txn.credit_amount
  | TxnType.Debit => some Txn.debit_amount

/-- The amount filter: applied only when a target column is selected and
the condition is not "Any Amount"; `Between` swaps reversed bounds and is
inclusive on both ends. -/
def applyAmountFilter (c : Criteria) (rows : List Txn) : List Txn :=
  match target_column c.amount_type with
  | none => rows
  | some col =>
    match c.filter_condition with
    | Cond.AnyAmount => rows
    | Cond.GreaterThan => rows.filter (fun r => decide (c.amount1 < col r))
    | Cond.LessThan => rows.filter (fun r => decide (col r < c.amount1))
    | Cond.Between =>
      let lo := if c.amount1 > c.amount2 then c.amount2 else c.amount1
      let hi := if c.amount1 > c.amount2 then c.amount1 else c.amount2
      rows.filter (fun r => decide (lo ≤ col r) && decide (col r ≤ hi))

/-- The full filtering pipeline on a copy of the loaded table:
date filter, then amount filter. -/
def filterTransactions (c : Criteria) (rows : List Txn) : List Txn :=
  applyAmountFilter c (applyDateFilter c rows)

/-- Metric `total_credit = filtered_df['credit_amount'].sum()`. -/
def total_credit (rows : List Txn) : ℚ := (rows.map Txn.credit_amount).sum

/-- Metric `total_debit = filtered_df['debit_amount'].sum()`. -/
def total_debit (rows : List Txn) : ℚ := (rows.map Txn.debit_amount).sum

/-- Metric `net_flow = total_credit - total_debit`. -/
def net_flow (rows : List Txn) : ℚ := total_credit rows - total_debit rows

/-- Spec-side row total (claim C1's words): the sum of the row's columns
from position 4 through the end of the input table, i.e. of all score
columns. -/
def specRowTotal (r : SRow) : ℚ := r.scores.sum

/-- Spec-side row average (claim C1's words): the arithmetic mean of the
row's columns at positions 4 through 7 of the *input* table, i.e. of the
first four score columns. -/
def specRowAverage (r : SRow) : ℚ :=
  let sel := r.scores.take 4
  sel.sum / sel.length

/-- Spec-side augmented table (claim C1's words): the input table with the
spec-side total and average appended to each row, in input order. -/
def specAugment (rows : List SRow) : List AugRow :=
  rows.map (fun r => ⟨r, specRowTotal r, specRowAverage r⟩)

/-- Spec-side amount predicate (claim C2's words): for a selected amount
`x`, `GreaterThan` is strict `>` bound1, `LessThan` is strict `<` bound1,
`Between` is inclusively between the two bounds. -/
def specCondKeep (c : Criteria) (x : ℚ) : Bool :=
  match c.filter_condition with
  | Cond.AnyAmount => true
  | Cond.GreaterThan => decide (c.amount1 < x)
  | Cond.LessThan => decide (x < c.amount1)
  | Cond.Between =>
      decide (min c.amount1 c.amount2 ≤ x) && decide (x ≤ max c.amount1 c.amount2)

/-- Spec-side row predicate (claim C2's words): the truncated date lies in
the inclusive range, and, when the transaction type is Credit or Debit and
the condition is not Any, the selected amount column satisfies the
condition; otherwise no amount predicate applies. -/
def specKeep (c : Criteria) (r : Txn) : Bool :=
  (decide (c.start_date ≤ r.transaction_date.day) &&
      decide (r.transaction_date.day ≤ c.end_date)) &&
    (match c.amount_type with
     | TxnType.All => true
     | TxnType.Credit => specCondKeep c r.credit_amount
     | TxnType.Debit => specCondKeep c r.debit_amount)

/-- First row of the Dashboard-1 concrete scenario: Class A,
scores 10, 20, 30, 40. -/
def studentA1 : SRow := ⟨"s1", "1", "A", [10, 20, 30, 40]⟩

/-- Second row of the Dashboard-1 concrete scenario: Class A,
scores 20, 20, 20, 20. -/
def studentA2 : SRow := ⟨"s2", "2", "A", [20, 20, 20, 20]⟩

/-- Third row of the Dashboard-1 concrete scenario: Class B,
scores 0, 0, 0, 0. -/
def studentB1 : SRow := ⟨"s3", "3", "B", [0, 0, 0, 0]⟩

/-- The three-row table of the Dashboard-1 concrete scenario. -/
def scenarioTable : List SRow := [studentA1, studentA2, studentB1]

/-- A row of a five-column input table (three identifiers followed by only
two score columns), used to probe the behaviour of the `3:7` slice when
the input is narrower than the documented seven-column shape. -/
def narrowRow : SRow := ⟨"x", "1", "A", [10, 20]⟩

/-- A one-row transaction table used to instantiate the Filter Engine
theorems on concrete data. -/
def txnSample : Txn := ⟨⟨10, 0⟩, "salary", 0, 1000, 1000⟩

/-- Taking at most the length of the first list from an append stays
inside the first list. -/
theorem take_append_left {α : Type} (l₁ l₂ : List α) (n : ℕ) (h : n ≤ l₁.length) :
    (l₁ ++ l₂).take n = l₁.take n := by
  rw [List.take_append_eq_append_take, Nat.sub_eq_zero_of_le h, List.take_zero,
    List.append_nil]

/-- Reading an initial segment of a list through `getD` at the indices of
`List.range`. -/
theorem range_map_getD {α : Type} (d : α) :
    ∀ (l : List α) (k : ℕ), k ≤ l.length →
      (List.range k).map (fun j => l.getD j d) = l.take k
  | _, 0, _ => by simp
  | [], k + 1, h => by simp at h
  | a :: l, k + 1, h => by
    rw [List.range_succ_eq_map, List.map_cons, List.map_map, List.take_succ_cons]
    have hk : k ≤ l.length := by simpa using h
    have ih := range_map_getD d l k hk
    have hmap : (List.range k).map ((fun j => (a :: l).getD j d) ∘ Nat.succ)
        = (List.range k).map (fun j => l.getD j d) :=
      List.map_congr_left (fun j _ => by
        simp [Function.comp, Nat.succ_eq_add_one])
    rw [hmap, ih, List.getD_cons_zero]

/-- Reading `getD` inside an initial segment agrees with `getD` on the list. -/
theorem getD_take {α : Type} (l : List α) (k j : ℕ) (hj : j < k) (d : α) :
    (l.take k).getD j d = l.getD j d := by
  rw [List.getD_eq_getD_get?, List.getD_eq_getD_get?, List.get?_eq_getElem?,
    List.get?_eq_getElem?, List.getElem?_take_of_lt hj]

/-- Splitting a filtered sum along a disjunction of disjoint predicates. -/
theorem sum_map_filter_or {α : Type} (p q : α → Bool) (f : α → ℚ)
    (hpq : ∀ a, p a = true → q a = false) :
    ∀ l : List α,
      ((l.filter (fun a => p a || q a)).map f).sum
        = ((l.filter p).map f).sum + ((l.filter q).map f).sum
  | [] => by simp
  | a :: l => by
    have ih := sum_map_filter_or p q f hpq l
    cases hp : p a <;> cases hq : q a
    · simp [List.filter_cons, hp, hq, ih]
    · simp [List.filter_cons, hp, hq, ih]
      ring
    · simp [List.filter_cons, hp, hq, ih]
      ring
    · have hfq := hpq a hp
      rw [hfq] at hq
      cases hq

/-- Summing key-filtered sums over a duplicate-free list of keys equals
the single sum filtered by membership of the row's key in that list. -/
theorem sum_filter_keys {α K : Type} [DecidableEq K] (key : α → K) (f : α → ℚ)
    (l : List α) :
    ∀ ks : List K, ks.Nodup →
      (ks.map (fun k => ((l.filter (fun a => decide (key a = k))).map f).sum)).sum
        = ((l.filter (fun a => decide (key a ∈ ks))).map f).sum
  | [], _ => by simp
  | k :: ks, h => by
    have hk : k ∉ ks := (List.nodup_cons.mp h).1
    have ih := sum_filter_keys key f l ks (List.nodup_cons.mp h).2
    have hsplit := sum_map_filter_or (fun a => decide (key a = k))
      (fun a => decide (key a ∈ ks)) f
      (fun a ha => by
        simp only [decide_eq_true_eq] at ha
        simp [ha, hk]) l
    have hpred : (fun a => decide (key a ∈ k :: ks))
        = (fun a => decide (key a = k) || decide (key a ∈ ks)) := by
      funext a
      simp [List.mem_cons]
    rw [List.map_cons, List.sum_cons, ih, hpred, hsplit]

/-- Partitioning a sum over a list by the distinct values of a key. -/
theorem sum_partition_by_key {α K : Type} [DecidableEq K] (key : α → K)
    (f : α → ℚ) (l : List α) :
    (((l.map key).dedup).map
        (fun k => ((l.filter (fun a => decide (key a = k))).map f).sum)).sum
      = (l.map f).sum := by
  rw [sum_filter_keys key f l _ (List.nodup_dedup _)]
  have hall : l.filter (fun a => decide (key a ∈ (l.map key).dedup)) = l :=
    List.filter_eq_self.mpr (fun a ha => by
      simp only [decide_eq_true_eq, List.mem_dedup]
      exact List.mem_map_of_mem key ha)
  rw [hall]

/-- On a non-empty table the `j`-th column mean is the column sum over the
column length. -/
theorem colMeanD_nonempty (rows : List SRow) (j : ℕ) (h : rows ≠ []) :
    colMeanD rows j = (rows.map (colVal j)).sum / (rows.length : ℚ) := by
  unfold colMeanD colMean listMean
  rw [if_neg (by simpa [List.isEmpty_iff] using h)]
  simp

/-- Claim C3: for every non-empty student table and every selected column,
the mean of the per-class column means weighted by class size equals the
global column mean of `subject_averages`. -/
theorem class_weighted_mean_consistency (rows : List SRow) (j : ℕ) (h : rows ≠ []) :
    ((classKeys rows).map
        (fun c => ((classRows rows c).length : ℚ) * colMeanD (classRows rows c) j)).sum
      / (rows.length : ℚ) = colMeanD rows j := by
  have hterm : ∀ c ∈ classKeys rows,
      ((classRows rows c).length : ℚ) * colMeanD (classRows rows c) j
        = ((classRows rows c).map (colVal j)).sum := by
    intro c hc
    have hmem : c ∈ rows.map SRow.cls := List.mem_dedup.mp hc
    obtain ⟨r, hr, hrc⟩ := List.mem_map.mp hmem
    have hne : classRows rows c ≠ [] := by
      intro hnil
      have hrmem : r ∈ classRows rows c :=
        List.mem_filter.mpr ⟨hr, by simp [hrc]⟩
      rw [hnil] at hrmem
      exact (List.not_mem_nil r) hrmem
    have hlen : ((classRows rows c).length : ℚ) ≠ 0 := by
      have : classRows rows c ≠ [] := hne
      simpa [List.length_eq_zero] using this
    rw [colMeanD_nonempty _ j hne, mul_comm, div_mul_cancel₀ _ hlen]
  rw [List.map_congr_left hterm]
  have hpart := sum_partition_by_key SRow.cls (colVal j) rows
  rw [show classKeys rows = (rows.map SRow.cls).dedup from rfl]
  rw [show (fun c => ((classRows rows c).map (colVal j)).sum)
      = (fun c => ((rows.filter (fun a => decide (a.cls = c))).map (colVal j)).sum)
    from rfl]
  rw [hpart, colMeanD_nonempty rows j h]

/-- Claim C1 (amended): for every input table whose rows all have at least
four score columns (i.e. at least seven columns in total), the augmented
table equals the input table with the spec-side `Total` (sum of the
columns from position 4 through the end) and `Average` (mean of the
columns at positions 4 through 7 of the input) appended, in input row
order. -/
theorem aggregate_refines_spec (rows : List SRow)
    (h : ∀ r ∈ rows, 4 ≤ r.scores.length) :
    augment rows = specAugment rows := by
  unfold augment specAugment
  apply List.map_congr_left
  intro r hr
  have h4 := h r hr
  have htake : (r.scores ++ [r.scores.sum]).take 4 = r.scores.take 4 :=
    take_append_left _ _ 4 h4
  simp only [rowAverage, specRowAverage, rowTotal, specRowTotal, htake]

/-- Witness for `aggregate_refines_spec` on a concrete seven-column row. -/
theorem aggregate_refines_spec_witness :
    augment [studentA1] = specAugment [studentA1] :=
  aggregate_refines_spec [studentA1] (by
    intro r hr
    rw [List.mem_singleton] at hr
    subst hr
    norm_num [studentA1])

/-- Claim C1 counterexample: on a five-column input table (two score
columns) the computed "Average Marks" column is the mean of the two
scores *and the appended total*, not the mean of the input's columns at
positions 4 through 7, so the augmented table differs from the
spec-side one. -/
theorem aggregate_narrow_table_cex :
    augment [narrowRow] ≠ specAugment [narrowRow] := by
  norm_num [augment, specAugment, narrowRow, rowTotal, rowAverage,
    specRowTotal, specRowAverage]

/-- Claim C10: on the documented input shape (exactly four score columns,
i.e. seven input columns), every row of the augmented table has
`Average Marks = Total Marks / 4`, because the slice `3:7` taken after the
total was appended covers exactly the four score columns whose sum is the
total. -/
theorem average_eq_total_div_four (rows : List SRow)
    (h : ∀ r ∈ rows, r.scores.length = 4) :
    (augment rows).map AugRow.averageMarks
      = (augment rows).map (fun x => x.totalMarks / 4) := by
  unfold augment
  rw [List.map_map, List.map_map]
  apply List.map_congr_left
  intro r hr
  have h4 := h r hr
  simp only [Function.comp]
  show rowAverage r = rowTotal r / 4
  simp only [rowAverage, rowTotal, take_append_left _ _ 4 (le_of_eq h4.symm),
    List.take_of_length_le (le_of_eq h4), h4]
  norm_num

/-- Witness for `average_eq_total_div_four` on the concrete scenario
table. -/
theorem average_eq_total_div_four_witness :
    (augment scenarioTable).map AugRow.averageMarks
      = (augment scenarioTable).map (fun x => x.totalMarks / 4) :=
  average_eq_total_div_four scenarioTable (by
    intro r hr
    simp only [scenarioTable, List.mem_cons, List.not_mem_nil, or_false] at hr
    rcases hr with rfl | rfl | rfl <;> norm_num [studentA1, studentA2, studentB1])

/-- Claim C2: the Filter Engine returns exactly the rows whose truncated
date lies in the inclusive range and which, when the transaction type is
Credit or Debit and the condition is not Any, satisfy the amount
condition on the selected column (strict for GreaterThan/LessThan,
inclusive between the two bounds for Between); with type All or condition
Any no amount predicate applies, and input row order is preserved. -/
theorem filter_engine_refines_spec (c : Criteria) (rows : List Txn) :
    filterTransactions c rows = rows.filter (specKeep c) := by
  obtain ⟨sd, ed, t, cond, b1, b2⟩ := c
  cases t with
  | All =>
    refine List.filter_congr ?_
    intro r _
    cases cond <;> simp [dateKeep, specKeep]
  | Credit =>
    cases cond with
    | AnyAmount =>
      refine List.filter_congr ?_
      intro r _
      simp [dateKeep, specKeep, specCondKeep]
    | GreaterThan =>
      have hred : filterTransactions ⟨sd, ed, TxnType.Credit, Cond.GreaterThan, b1, b2⟩ rows
          = (rows.filter (dateKeep ⟨sd, ed, TxnType.Credit, Cond.GreaterThan, b1, b2⟩)).filter
              (fun r => decide (b1 < r.credit_amount)) := rfl
      rw [hred, List.filter_filter]
      refine List.filter_congr ?_
      intro r _
      simp [dateKeep, specKeep, specCondKeep, Bool.and_comm, Bool.and_assoc, Bool.and_left_comm]
    | LessThan =>
      have hred : filterTransactions ⟨sd, ed, TxnType.Credit, Cond.LessThan, b1, b2⟩ rows
          = (rows.filter (dateKeep ⟨sd, ed, TxnType.Credit, Cond.LessThan, b1, b2⟩)).filter
              (fun r => decide (r.credit_amount < b1)) := rfl
      rw [hred, List.filter_filter]
      refine List.filter_congr ?_
      intro r _
      simp [dateKeep, specKeep, specCondKeep, Bool.and_comm, Bool.and_assoc, Bool.and_left_comm]
    | Between =>
      have hred : filterTransactions ⟨sd, ed, TxnType.Credit, Cond.Between, b1, b2⟩ rows
          = (rows.filter (dateKeep ⟨sd, ed, TxnType.Credit, Cond.Between, b1, b2⟩)).filter
              (fun r => decide ((if b1 > b2 then b2 else b1) ≤ r.credit_amount) &&
                decide (r.credit_amount ≤ (if b1 > b2 then b1 else b2))) := rfl
      rw [hred, List.filter_filter]
      refine List.filter_congr ?_
      intro r _
      by_cases hb : b1 > b2
      · simp [dateKeep, specKeep, specCondKeep, hb, min_eq_right hb.le, max_eq_left hb.le,
          Bool.and_comm, Bool.and_assoc, Bool.and_left_comm]
      · simp [dateKeep, specKeep, specCondKeep, hb, min_eq_left (not_lt.mp hb),
          max_eq_right (not_lt.mp hb), Bool.and_comm, Bool.and_assoc, Bool.and_left_comm]
  | Debit =>
    cases cond with
    | AnyAmount =>
      refine List.filter_congr ?_
      intro r _
      simp [dateKeep, specKeep, specCondKeep]
    | GreaterThan =>
      have hred : filterTransactions ⟨sd, ed, TxnType.Debit, Cond.GreaterThan, b1, b2⟩ rows
          = (rows.filter (dateKeep ⟨sd, ed, TxnType.Debit, Cond.GreaterThan, b1, b2⟩)).filter
              (fun r => decide (b1 < r.debit_amount)) := rfl
      rw [hred, List.filter_filter]
      refine List.filter_congr ?_
      intro r _
      simp [dateKeep, specKeep, specCondKeep, Bool.and_comm, Bool.and_assoc, Bool.and_left_comm]
    | LessThan =>
      have hred : filterTransactions ⟨sd, ed, TxnType.Debit, Cond.LessThan, b1, b2⟩ rows
          = (rows.filter (dateKeep ⟨sd, ed, TxnType.Debit, Cond.LessThan, b1, b2⟩)).filter
              (fun r => decide (r.debit_amount < b1)) := rfl
      rw [hred, List.filter_filter]
      refine List.filter_congr ?_
      intro r _
      simp [dateKeep, specKeep, specCondKeep, Bool.and_comm, Bool.and_assoc, Bool.and_left_comm]
    | Between =>
      have hred : filterTransactions ⟨sd, ed, TxnType.Debit, Cond.Between, b1, b2⟩ rows
          = (rows.filter (dateKeep ⟨sd, ed, TxnType.Debit, Cond.Between, b1, b2⟩)).filter
              (fun r => decide ((if b1 > b2 then b2 else b1) ≤ r.debit_amount) &&
                decide (r.debit_amount ≤ (if b1 > b2 then b1 else b2))) := rfl
      rw [hred, List.filter_filter]
      refine List.filter_congr ?_
      intro r _
      by_cases hb : b1 > b2
      · simp [dateKeep, specKeep, specCondKeep, hb, min_eq_right hb.le, max_eq_left hb.le,
          Bool.and_comm, Bool.and_assoc, Bool.and_left_comm]
      · simp [dateKeep, specKeep, specCondKeep, hb, min_eq_left (not_lt.mp hb),
          max_eq_right (not_lt.mp hb), Bool.and_comm, Bool.and_assoc, Bool.and_left_comm]

/-- Claim C4: the displayed metrics are the sums of the credit and debit
columns of the filtered table, `net_flow` is their difference, and on an
empty filtered result all three are zero. -/
theorem metrics_consistency (c : Criteria) (rows : List Txn) :
    total_credit (filterTransactions c rows)
        = ((filterTransactions c rows).map Txn.credit_amount).sum
      ∧ total_debit (filterTransactions c rows)
        = ((filterTransactions c rows).map Txn.debit_amount).sum
      ∧ net_flow (filterTransactions c rows)
        = total_credit (filterTransactions c rows)
            - total_debit (filterTransactions c rows)
      ∧ (filterTransactions c rows = [] →
          total_credit (filterTransactions c rows) = 0
            ∧ total_debit (filterTransactions c rows) = 0
            ∧ net_flow (filterTransactions c rows) = 0) := by
  refine ⟨rfl, rfl, rfl, fun he => ?_⟩
  rw [he]
  norm_num [total_credit, total_debit, net_flow]

/-- Witness for `metrics_consistency` at a reversed date range, where the
filtered result is empty and the inner implication fires. -/
theorem metrics_consistency_witness :
    total_credit (filterTransactions ⟨20, 5, TxnType.All, Cond.AnyAmount, 0, 0⟩ [txnSample])
        = ((filterTransactions ⟨20, 5, TxnType.All, Cond.AnyAmount, 0, 0⟩ [txnSample]).map
            Txn.credit_amount).sum
      ∧ total_debit (filterTransactions ⟨20, 5, TxnType.All, Cond.AnyAmount, 0, 0⟩ [txnSample])
        = ((filterTransactions ⟨20, 5, TxnType.All, Cond.AnyAmount, 0, 0⟩ [txnSample]).map
            Txn.debit_amount).sum
      ∧ net_flow (filterTransactions ⟨20, 5, TxnType.All, Cond.AnyAmount, 0, 0⟩ [txnSample])
        = total_credit (filterTransactions ⟨20, 5, TxnType.All, Cond.AnyAmount, 0, 0⟩ [txnSample])
            - total_debit (filterTransactions ⟨20, 5, TxnType.All, Cond.AnyAmount, 0, 0⟩ [txnSample])
      ∧ (filterTransactions ⟨20, 5, TxnType.All, Cond.AnyAmount, 0, 0⟩ [txnSample] = [] →
          total_credit (filterTransactions ⟨20, 5, TxnType.All, Cond.AnyAmount, 0, 0⟩ [txnSample]) = 0
            ∧ total_debit (filterTransactions ⟨20, 5, TxnType.All, Cond.AnyAmount, 0, 0⟩ [txnSample]) = 0
            ∧ net_flow (filterTransactions ⟨20, 5, TxnType.All, Cond.AnyAmount, 0, 0⟩ [txnSample]) = 0) :=
  metrics_consistency ⟨20, 5, TxnType.All, Cond.AnyAmount, 0, 0⟩ [txnSample]

/-- The amount filter maps the empty table to the empty table. -/
theorem applyAmountFilter_nil (c : Criteria) : applyAmountFilter c [] = [] := by
  unfold applyAmountFilter
  cases target_column c.amount_type with
  | none => rfl
  | some col => cases c.filter_condition <;> rfl

/-- Claim C6: with `date_from > date_to` the bounds are not reordered and
the filtered result is empty (no error is raised). -/
theorem reversed_date_range_empty (c : Criteria) (rows : List Txn)
    (h : c.end_date < c.start_date) :
    filterTransactions c rows = [] := by
  unfold filterTransactions applyDateFilter
  have hnil : rows.filter (dateKeep c) = [] := by
    rw [List.filter_eq_nil_iff]
    intro r _
    simp only [dateKeep, Bool.and_eq_true, decide_eq_true_eq, not_and]
    intro h1 h2
    omega
  rw [hnil, applyAmountFilter_nil]

/-- Witness for `reversed_date_range_empty` at a concrete reversed
range. -/
theorem reversed_date_range_empty_witness :
    filterTransactions ⟨20, 5, TxnType.All, Cond.AnyAmount, 0, 0⟩ [txnSample] = [] :=
  reversed_date_range_empty ⟨20, 5, TxnType.All, Cond.AnyAmount, 0, 0⟩ [txnSample]
    (by norm_num)

/-- Claim C7: for Credit or Debit with `Between` and reversed bounds
`b1 > b2`, filtering with `(b1, b2)` yields the same table and the same
metrics as filtering with `(b2, b1)`. -/
theorem between_swap_law (sd ed : ℤ) (t : TxnType) (b1 b2 : ℚ) (rows : List Txn)
    (hb : b2 < b1) (ht : t = TxnType.Credit ∨ t = TxnType.Debit) :
    filterTransactions ⟨sd, ed, t, Cond.Between, b1, b2⟩ rows
        = filterTransactions ⟨sd, ed, t, Cond.Between, b2, b1⟩ rows
      ∧ total_credit (filterTransactions ⟨sd, ed, t, Cond.Between, b1, b2⟩ rows)
        = total_credit (filterTransactions ⟨sd, ed, t, Cond.Between, b2, b1⟩ rows)
      ∧ total_debit (filterTransactions ⟨sd, ed, t, Cond.Between, b1, b2⟩ rows)
        = total_debit (filterTransactions ⟨sd, ed, t, Cond.Between, b2, b1⟩ rows)
      ∧ net_flow (filterTransactions ⟨sd, ed, t, Cond.Between, b1, b2⟩ rows)
        = net_flow (filterTransactions ⟨sd, ed, t, Cond.Between, b2, b1⟩ rows) := by
  have htab : filterTransactions ⟨sd, ed, t, Cond.Between, b1, b2⟩ rows
      = filterTransactions ⟨sd, ed, t, Cond.Between, b2, b1⟩ rows := by
    rcases ht with h | h <;> subst h
    · have hred1 : filterTransactions ⟨sd, ed, TxnType.Credit, Cond.Between, b1, b2⟩ rows
          = (rows.filter (dateKeep ⟨sd, ed, TxnType.Credit, Cond.Between, b1, b2⟩)).filter
              (fun r => decide ((if b1 > b2 then b2 else b1) ≤ r.credit_amount) &&
                decide (r.credit_amount ≤ (if b1 > b2 then b1 else b2))) := rfl
      have hred2 : filterTransactions ⟨sd, ed, TxnType.Credit, Cond.Between, b2, b1⟩ rows
          = (rows.filter (dateKeep ⟨sd, ed, TxnType.Credit, Cond.Between, b2, b1⟩)).filter
              (fun r => decide ((if b2 > b1 then b1 else b2) ≤ r.credit_amount) &&
                decide (r.credit_amount ≤ (if b2 > b1 then b2 else b1))) := rfl
      rw [hred1, hred2, if_pos hb, if_pos hb, if_neg (not_lt.mpr hb.le),
        if_neg (not_lt.mpr hb.le)]
      rfl
    · have hred1 : filterTransactions ⟨sd, ed, TxnType.Debit, Cond.Between, b1, b2⟩ rows
          = (rows.filter (dateKeep ⟨sd, ed, TxnType.Debit, Cond.Between, b1, b2⟩)).filter
              (fun r => decide ((if b1 > b2 then b2 else b1) ≤ r.debit_amount) &&
                decide (r.debit_amount ≤ (if b1 > b2 then b1 else b2))) := rfl
      have hred2 : filterTransactions ⟨sd, ed, TxnType.Debit, Cond.Between, b2, b1⟩ rows
          = (rows.filter (dateKeep ⟨sd, ed, TxnType.Debit, Cond.Between, b2, b1⟩)).filter
              (fun r => decide ((if b2 > b1 then b1 else b2) ≤ r.debit_amount) &&
                decide (r.debit_amount ≤ (if b2 > b1 then b2 else b1))) := rfl
      rw [hred1, hred2, if_pos hb, if_pos hb, if_neg (not_lt.mpr hb.le),
        if_neg (not_lt.mpr hb.le)]
      rfl
  exact ⟨htab, by rw [htab], by rw [htab], by rw [htab]⟩

/-- Witness for `between_swap_law` on a concrete credit filter with
reversed bounds. -/
theorem between_swap_law_witness :
    filterTransactions ⟨0, 30, TxnType.Credit, Cond.Between, 2000, 500⟩ [txnSample]
        = filterTransactions ⟨0, 30, TxnType.Credit, Cond.Between, 500, 2000⟩ [txnSample]
      ∧ total_credit (filterTransactions ⟨0, 30, TxnType.Credit, Cond.Between, 2000, 500⟩ [txnSample])
        = total_credit (filterTransactions ⟨0, 30, TxnType.Credit, Cond.Between, 500, 2000⟩ [txnSample])
      ∧ total_debit (filterTransactions ⟨0, 30, TxnType.Credit, Cond.Between, 2000, 500⟩ [txnSample])
        = total_debit (filterTransactions ⟨0, 30, TxnType.Credit, Cond.Between, 500, 2000⟩ [txnSample])
      ∧ net_flow (filterTransactions ⟨0, 30, TxnType.Credit, Cond.Between, 2000, 500⟩ [txnSample])
        = net_flow (filterTransactions ⟨0, 30, TxnType.Credit, Cond.Between, 500, 2000⟩ [txnSample]) :=
  between_swap_law 0 30 TxnType.Credit 2000 500 [txnSample] (by norm_num) (Or.inl rfl)

/-- Claim C5 (divergence exhibit): on the empty table the augmented table
and the class key list are empty, but `subject_averages` is a vector of
four NaN entries (the slice `3:7` of a seven-column header), so a NaN
value is surfaced rather than an empty or NaN-free result. -/
theorem empty_table_outputs :
    augment ([] : List SRow) = []
      ∧ classKeys ([] : List SRow) = []
      ∧ subject_averages 4 ([] : List SRow) = [none, none, none, none] := by
  refine ⟨rfl, rfl, ?_⟩
  norm_num [subject_averages, selCount, colMean, listMean, List.range_succ]

/-- Claim C8: for a well-formed student table (every row with `n ≥ 4`
score columns), `subject_averages` has one entry per Average-range
subject column in original order, each entry the mean of that input
column over all rows; and on a one-row table it equals that row's
Average-range values. -/
theorem subject_averages_spec (n : ℕ) (rows : List SRow) (r : SRow)
    (hn : 4 ≤ n) (h : ∀ s ∈ rows, s.scores.length = n)
    (hr : r.scores.length = n) :
    subject_averages n rows
        = (List.range 4).map
            (fun j => listMean (rows.map (fun s => s.scores.getD j 0)))
      ∧ subject_averages n [r] = (r.scores.take 4).map some := by
  have hsel : selCount n = 4 := by
    unfold selCount
    omega
  have hcol : ∀ (s : SRow), s.scores.length = n → ∀ j, j < 4 →
      colVal j s = s.scores.getD j 0 := by
    intro s hs j hj
    unfold colVal augScores
    rw [take_append_left _ _ 4 (by omega)]
    exact getD_take s.scores 4 j hj 0
  constructor
  · unfold subject_averages
    rw [hsel]
    refine List.map_congr_left ?_
    intro j hj
    have hj4 : j < 4 := List.mem_range.mp hj
    unfold colMean
    congr 1
    refine List.map_congr_left ?_
    intro s hs
    exact hcol s (h s hs) j hj4
  · unfold subject_averages
    rw [hsel]
    have hone : ∀ j ∈ List.range 4, colMean [r] j = some (r.scores.getD j 0) := by
      intro j hj
      have hj4 : j < 4 := List.mem_range.mp hj
      unfold colMean listMean
      rw [if_neg (by simp)]
      simp [hcol r hr j hj4]
    rw [List.map_congr_left hone]
    have h4le : 4 ≤ r.scores.length := by omega
    have hmm : (List.range 4).map (fun j => some (r.scores.getD j 0))
        = ((List.range 4).map (fun j => r.scores.getD j 0)).map some := by
      rw [List.map_map]
      rfl
    rw [hmm, range_map_getD 0 r.scores 4 h4le]

/-- Witness for `subject_averages_spec` on the concrete scenario table
and its first row. -/
theorem subject_averages_spec_witness :
    subject_averages 4 scenarioTable
        = (List.range 4).map
            (fun j => listMean (scenarioTable.map (fun s => s.scores.getD j 0)))
      ∧ subject_averages 4 [studentA1] = (studentA1.scores.take 4).map some :=
  subject_averages_spec 4 scenarioTable studentA1 (by norm_num)
    (by
      intro s hs
      simp only [scenarioTable, List.mem_cons, List.not_mem_nil, or_false] at hs
      rcases hs with rfl | rfl | rfl <;> norm_num [studentA1, studentA2, studentB1])
    (by norm_num [studentA1])

/-- Claim C9 counterexample: in exact arithmetic the subject averages of
the concrete three-row scenario are 10, 40/3, 50/3 and 20, so the list
with the rounded literals 13.33 and 16.67 is not the computed output. -/
theorem scenario_rounded_subject_averages_cex :
    subject_averages 4 scenarioTable
      ≠ [some 10, some (13.33 : ℚ), some (16.67 : ℚ), some 20] := by
  norm_num [subject_averages, selCount, colMean, listMean, colVal, augScores,
    rowTotal, rowAverage, scenarioTable, studentA1, studentA2, studentB1,
    List.range_succ]

/-- Claim C9 (amended): the concrete scenario yields row totals
100, 80, 0, row averages 25, 20, 0, class averages A = 15, 20, 25, 30 and
B = 0, 0, 0, 0, and exact subject averages 10, 40/3, 50/3, 20 (which
display as 13.33 and 16.67 to two decimals). -/
theorem scenario_exact_values :
    (augment scenarioTable).map AugRow.totalMarks = [100, 80, 0]
      ∧ (augment scenarioTable).map AugRow.averageMarks = [25, 20, 0]
      ∧ classKeys scenarioTable = ["A", "B"]
      ∧ class_average 4 scenarioTable ("A") = [some 15, some 20, some 25, some 30]
      ∧ class_average 4 scenarioTable ("B") = [some 0, some 0, some 0, some 0]
      ∧ subject_averages 4 scenarioTable
        = [some 10, some (40 / 3 : ℚ), some (50 / 3 : ℚ), some 20] := by
  refine ⟨?_, ?_, ?_, ?_, ?_, ?_⟩
  · norm_num [augment, scenarioTable, studentA1, studentA2, studentB1, rowTotal]
  · norm_num [augment, scenarioTable, studentA1, studentA2, studentB1,
      rowAverage, rowTotal]
  · rfl
  · have hA : classRows scenarioTable ("A") = [studentA1, studentA2] := rfl
    norm_num [class_average, hA, selCount, colMean, listMean, colVal,
      augScores, rowTotal, rowAverage, studentA1, studentA2, List.range_succ]
  · have hB : classRows scenarioTable ("B") = [studentB1] := rfl
    norm_num [class_average, hB, selCount, colMean, listMean, colVal,
      augScores, rowTotal, rowAverage, studentB1, List.range_succ]
  · norm_num [subject_averages, selCount, colMean, listMean, colVal, augScores,
      rowTotal, rowAverage, scenarioTable, studentA1, studentA2, studentB1,
      List.range_succ]

/-- Witness for `class_weighted_mean_consistency` on the concrete
scenario table at the first selected column. -/
theorem class_weighted_mean_consistency_witness :
    ((classKeys scenarioTable).map
        (fun c => ((classRows scenarioTable c).length : ℚ)
          * colMeanD (classRows scenarioTable c) 0)).sum
      / (scenarioTable.length : ℚ) = colMeanD scenarioTable 0 :=
  class_weighted_mean_consistency scenarioTable 0 (by simp [scenarioTable])
